import Mathlib

/-!
# FinalReport.cpp: projectile-motion visualiser

A shallow embedding of `src/FinalReport.cpp`.

* `float` values are read as elements of a linearly ordered field `α`
  (exact arithmetic, no rounding); decimal literals are the fractions they
  denote (`9.81f` is `981/100`, `3.14` is `314/100`).
* `sin` and `cos` come from `<cmath>`; every definition that calls them takes
  them as the parameters `sin cos : α → α`.  Theorems that depend on what the
  functions compute instantiate them with `Real.sin` and `Real.cos`.
* A `std::vector<Point>` is a `List`; `push_back` appends at the end and
  `back()` is `List.getLast?`.
* The `while` loop of `Trajectory::generatePoints` is a recursion on a fuel
  counter: one unit of fuel per evaluation of the loop condition, `none` when
  the fuel runs out before the condition fails.
* The OpenGL / GLFW calls draw and poll; of `render` only the position of the
  current marker is kept, of `glfwPollEvents` the list of key events it hands
  to `keyCallback`, of `steady_clock::now()` the reading taken in the frame.
-/

namespace FinalReport

/-! ## Constants and globals -/

section Defs

variable {α : Type} [LinearOrderedField α]

/-- Line 13: `const float g = 9.81f;` -/
def g : α := 981 / 100

/-- Line 14: `const float scale = 2.0f;` -/
def scale : α := 2

/-- Line 15: `const float M_PI = 3.14;` -/
def M_PI : α := 314 / 100

/-- Line 18: `float v0 = 4.0f;` -/
def v0 : α := 4

/-- Line 19: `float angle = 60.0f;` -/
def angle : α := 60

/-- Line 23: `float blockY = 0.45f;` -/
def blockY : α := 45 / 100

/-- Line 24: `float blockWidth = 0.10f;` -/
def blockWidth : α := 10 / 100

/-- Line 25: `float blockHeight = 0.1f;` -/
def blockHeight : α := 1 / 10

/-- Line 220: `float dt = 0.05f;` (never assigned again). -/
def dt : α := 5 / 100

/-- GLFW key and action codes used by `keyCallback` (values of `glfw3.h`). -/
def GLFW_RELEASE : Int := 0

/-- Action code of a key press. -/
def GLFW_PRESS : Int := 1

/-- Action code of a held key. -/
def GLFW_REPEAT : Int := 2

/-- Key code of `W`. -/
def GLFW_KEY_W : Int := 87

/-- Key code of `S`. -/
def GLFW_KEY_S : Int := 83

/-- Key code of the up arrow. -/
def GLFW_KEY_UP : Int := 265

/-- Key code of the down arrow. -/
def GLFW_KEY_DOWN : Int := 264

/-! ## Data model -/

/-- Lines 28-47: `class Projectile` with its two private fields. -/
structure Projectile (α : Type) where
  v0 : α
  angle : α
deriving DecidableEq, Repr

/-- Lines 56-58: `struct Point`. -/
structure Point (α : Type) where
  x : α
  y : α
deriving DecidableEq, Repr

/-- Lines 61-82: `class Trajectory`, a vector of points. -/
structure Trajectory (α : Type) where
  points : List (Point α)
deriving DecidableEq, Repr

/-! ## Kinematics -/

/-- Lines 33-37: `Projectile::calculatePosition`; the two reference
parameters `x`, `y` are returned as a `Point`. -/
def Projectile.calculatePosition (sin cos : α → α) (p : Projectile α) (time : α) :
    Point α :=
  let angleRad := p.angle * M_PI / 180
  { x := 1 / 2 + p.v0 * cos angleRad * time * scale
    y := 1 / 2 + p.v0 * sin angleRad * time * scale - 1 / 2 * g * time * time * scale }

/-- Lines 50-54: `calculateMaxDandH`, returning `(x_max, y_max)`. -/
def calculateMaxDandH (sin : α → α) (projectile : Projectile α) : α × α :=
  let angleRad := projectile.angle * M_PI / 180
  ((projectile.v0 * projectile.v0 * sin (2 * angleRad)) / g,
   (projectile.v0 * projectile.v0 * sin angleRad * sin angleRad) / (2 * g))

/-! ## Trajectory sampler -/

/-- Lines 71-75: the `while (t <= t_max)` loop of `generatePoints`, started
at time `t` with the vector `points`. -/
def generatePointsLoop (sin cos : α → α) (projectile : Projectile α) (dt t_max : α) :
    Nat → α → List (Point α) → Option (List (Point α))
  | 0, _, _ => none
  | fuel + 1, t, points =>
    if t ≤ t_max then
      generatePointsLoop sin cos projectile dt t_max fuel (t + dt)
        (points ++ [projectile.calculatePosition sin cos t])
    else
      some points

/-- Lines 67-76: `Trajectory::generatePoints`; `points.clear()` drops what the
trajectory held, then the loop runs from `t = 0`. -/
def Trajectory.generatePoints (sin cos : α → α) (fuel : Nat) (_self : Trajectory α)
    (projectile : Projectile α) (dt t_max : α) : Option (Trajectory α) :=
  (generatePointsLoop sin cos projectile dt t_max fuel 0 []).map Trajectory.mk

/-- Lines 63-65: the constructor, which calls `generatePoints` on the empty
vector. -/
def Trajectory.new (sin cos : α → α) (fuel : Nat) (projectile : Projectile α)
    (dt t_max : α) : Option (Trajectory α) :=
  Trajectory.generatePoints sin cos fuel ⟨[]⟩ projectile dt t_max

/-! ## Collision detector -/

/-- Lines 85-87: `checkCollision`; `blockX` is the global assigned once in
`main`, the other three are the initialised globals. -/
def checkCollision (blockX x y : α) : Bool :=
  decide (x ≥ blockX ∧ x ≤ blockX + blockWidth ∧ y ≥ blockY ∧ y ≤ blockY + blockHeight)

/-! ## Renderer -/

/-- Lines 114-123 of `render`: the position of the current marker.  With
`hit` set it is `points.back()`, which is undefined on an empty vector
(`none`). -/
def render (sin cos : α → α) (trajectory : Trajectory α) (t : α) (hit : Bool)
    (projectile : Projectile α) : Option (Point α) :=
  if !hit then
    some (projectile.calculatePosition sin cos t)
  else
    trajectory.points.getLast?

/-! ## Input handler -/

/-- Lines 134-156: `keyCallback`, acting on the projectile registered as the
window user pointer (line 209, before the first poll). -/
def keyCallback (projectile : Projectile α) (key action : Int) : Projectile α :=
  if action = GLFW_PRESS ∨ action = GLFW_REPEAT then
    if key = GLFW_KEY_W then
      { projectile with v0 := projectile.v0 + 1 / 10 }
    else if key = GLFW_KEY_S then
      { projectile with v0 := projectile.v0 - 1 / 10 }
    else if key = GLFW_KEY_UP then
      let projectile := { projectile with angle := projectile.angle + 1 }
      if projectile.angle > 90 then { projectile with angle := 90 } else projectile
    else if key = GLFW_KEY_DOWN then
      let projectile := { projectile with angle := projectile.angle - 1 }
      if projectile.angle < 0 then { projectile with angle := 0 } else projectile
    else
      projectile
  else
    projectile

/-- The key events one `glfwPollEvents` call delivers, in order. -/
def pollEvents (projectile : Projectile α) (events : List (Int × Int)) : Projectile α :=
  events.foldl (fun p e => keyCallback p e.1 e.2) projectile

/-! ## Main loop -/

/-- The variables of `main` that live across frames (lines 178, 221-228). -/
structure State (α : Type) where
  projectile : Projectile α
  t_max : α
  trajectory : Trajectory α
  time : α
  hit : Bool
  gameCleared : Bool
  messageDisplayed : Bool
  clearTime : α
deriving DecidableEq, Repr

/-- Lines 178 and 220-228: the state on entry to the loop. -/
def setup (sin cos : α → α) (fuel : Nat) : Option (State α) :=
  let projectile : Projectile α := ⟨v0, angle⟩
  let t_max := (2 * projectile.v0 * sin (projectile.angle * M_PI / 180)) / g
  (Trajectory.new sin cos fuel projectile dt t_max).map fun trajectory =>
    { projectile := projectile
      t_max := t_max
      trajectory := trajectory
      time := 0
      hit := false
      gameCleared := false
      messageDisplayed := false
      clearTime := 0 }

/-- Lines 236-253: the `if (!hit)` block of a frame, run on the projectile as
the polled key events left it; `now` is the clock reading minus `startTime`. -/
def update (sin cos : α → α) (fuel : Nat) (blockX now : α) (s : State α) :
    Option (State α) :=
  if !s.hit then
    let time := s.time + dt
    let time := if time > s.t_max then 0 else time
    let p := s.projectile.calculatePosition sin cos time
    let collided := checkCollision blockX p.x p.y
    let t_max := (5 * s.projectile.v0 * sin (s.projectile.angle * M_PI / 180)) / g
    (s.trajectory.generatePoints sin cos fuel s.projectile dt t_max).map fun trajectory =>
      { s with
        time := time
        hit := if collided then true else s.hit
        gameCleared := if collided then true else s.gameCleared
        clearTime := if collided then now else s.clearTime
        t_max := t_max
        trajectory := trajectory }
  else
    some s

/-- Lines 255-259: the clear message is printed once; only the flag is kept. -/
def showMessage (s : State α) : State α :=
  if s.gameCleared && !s.messageDisplayed then { s with messageDisplayed := true } else s

/-- Lines 232-259: one iteration of the main loop: poll the key events, run
the update block, print the clear message once. -/
def frame (sin cos : α → α) (fuel : Nat) (blockX : α) (events : List (Int × Int))
    (now : α) (s : State α) : Option (State α) :=
  (update sin cos fuel blockX now { s with projectile := pollEvents s.projectile events }).map
    showMessage

/-- What one frame takes from outside: the key events it polls, the clock
reading, and the fuel its sampler loop may use. -/
structure FrameInput (α : Type) where
  events : List (Int × Int)
  now : α
  fuel : Nat

/-- A run of the main loop, one `FrameInput` per frame. -/
def frames (sin cos : α → α) (blockX : α) : List (FrameInput α) → State α → Option (State α)
  | [], s => some s
  | inp :: rest, s =>
    match frame sin cos inp.fuel blockX inp.events inp.now s with
    | none => none
    | some s1 => frames sin cos blockX rest s1

/-- The states the loop head can be in: `setup` followed by a run of frames,
each loop with a fuel of its own. -/
def Reachable (sin cos : α → α) (blockX : α) (s : State α) : Prop :=
  ∃ (fuel : Nat) (inputs : List (FrameInput α)) (s0 : State α),
    setup sin cos fuel = some s0 ∧ frames sin cos blockX inputs s0 = some s

/-! ## Reference values used in the statements -/

/-- Reference value for the sampler: the list of `calculatePosition (i * dt)`
for `i = k, ..., k + m - 1`. -/
def samples (sin cos : α → α) (projectile : Projectile α) (dt : α) (k m : Nat) :
    List (Point α) :=
  (List.range' k m).map fun (i : Nat) => projectile.calculatePosition sin cos ((i : α) * dt)

/-- Reference value for lines 237-240: the elapsed time a flying frame moves
to, in the words of the specification (advance by `dt`, wrap to 0 past the
bound). -/
def nextTime (s : State α) : α :=
  if s.time + dt ≤ s.t_max then s.time + dt else 0

/-- Reference value for `setup`: the state on entry to the loop when the
constructor has produced `n` samples. -/
def setupState (sin cos : α → α) (n : Nat) : State α :=
  { projectile := ⟨v0, angle⟩
    t_max := (2 * v0 * sin (angle * M_PI / 180)) / g
    trajectory := ⟨samples sin cos ⟨v0, angle⟩ dt 0 n⟩
    time := 0
    hit := false
    gameCleared := false
    messageDisplayed := false
    clearTime := 0 }

/-- Key events of a first frame that ends in a hit when `blockX = 1`: Down
pressed 60 times (angle 60 to 0), then W pressed 10 times (speed 4 to 5). -/
def hitEvents : List (Int × Int) :=
  List.replicate 60 (GLFW_KEY_DOWN, GLFW_PRESS) ++ List.replicate 10 (GLFW_KEY_W, GLFW_PRESS)

/-- Reference value: the state that first frame leaves, the clock reading
being `now`. -/
def hitState (now : α) : State α :=
  { projectile := ⟨5, 0⟩
    t_max := 0
    trajectory := ⟨[⟨1 / 2, 1 / 2⟩]⟩
    time := 1 / 20
    hit := true
    gameCleared := true
    messageDisplayed := true
    clearTime := now }

end Defs

/-! ## The sampler loop -/

section Sampler

variable {α : Type} [LinearOrderedField α]

theorem samples_length (sin cos : α → α) (projectile : Projectile α) (dt : α) (k m : Nat) :
    (samples sin cos projectile dt k m).length = m := by
  simp [samples]

/-- Started at `t = k * dt` with `m` samples still below the bound, the loop
returns after `m + 1` tests of its condition, having appended those samples. -/
theorem generatePointsLoop_eq (sin cos : α → α) (projectile : Projectile α) (dt t_max : α)
    (hdt : 0 < dt) (n : Nat) (hn : (n : α) * dt ≤ t_max) (hn1 : t_max < ((n : α) + 1) * dt) :
    ∀ (m k : Nat) (acc : List (Point α)) (fuel : Nat), k + m = n + 1 → m + 1 ≤ fuel →
      generatePointsLoop sin cos projectile dt t_max fuel ((k : α) * dt) acc
        = some (acc ++ samples sin cos projectile dt k m) := by
  intro m
  induction m with
  | zero =>
    intro k acc fuel hk hfuel
    obtain ⟨f, rfl⟩ : ∃ f, fuel = f + 1 := ⟨fuel - 1, by omega⟩
    have hkn : (k : α) = (n : α) + 1 := by
      have : k = n + 1 := by omega
      subst this
      push_cast
      rfl
    have : ¬ ((k : α) * dt ≤ t_max) := by
      rw [hkn]
      exact not_le.mpr hn1
    simp [generatePointsLoop, this, samples]
  | succ m ih =>
    intro k acc fuel hk hfuel
    obtain ⟨f, rfl⟩ : ∃ f, fuel = f + 1 := ⟨fuel - 1, by omega⟩
    have hkn : (k : α) ≤ (n : α) := by
      have : k ≤ n := by omega
      exact_mod_cast this
    have hle : (k : α) * dt ≤ t_max :=
      le_trans (mul_le_mul_of_nonneg_right hkn hdt.le) hn
    have hnext : (k : α) * dt + dt = ((k + 1 : Nat) : α) * dt := by
      push_cast
      ring
    have := ih (k + 1) (acc ++ [projectile.calculatePosition sin cos ((k : α) * dt)]) f
      (by omega) (by omega)
    simp only [generatePointsLoop, hle, if_true, hnext, this]
    simp [samples, List.range'_succ]

/-- A negative bound: the first test of the loop condition fails. -/
theorem generatePointsLoop_neg (sin cos : α → α) (projectile : Projectile α) (dt t_max : α)
    (ht : t_max < 0) (fuel : Nat) (acc : List (Point α)) :
    generatePointsLoop sin cos projectile dt t_max (fuel + 1) 0 acc = some acc := by
  simp [generatePointsLoop, not_le.mpr ht]

/-- With `n * dt ≤ t_max < (n + 1) * dt` the sampler returns the `n + 1`
samples at `0, dt, ..., n * dt`, whatever the trajectory held before. -/
theorem generatePoints_eq (sin cos : α → α) (self : Trajectory α) (projectile : Projectile α)
    (dt t_max : α) (hdt : 0 < dt) (n : Nat) (hn : (n : α) * dt ≤ t_max)
    (hn1 : t_max < ((n : α) + 1) * dt) (fuel : Nat) (hfuel : n + 2 ≤ fuel) :
    self.generatePoints sin cos fuel projectile dt t_max
      = some ⟨samples sin cos projectile dt 0 (n + 1)⟩ := by
  have := generatePointsLoop_eq sin cos projectile dt t_max hdt n hn hn1 (n + 1) 0 [] fuel
    (by omega) (by omega)
  simp only [Nat.cast_zero, zero_mul, List.nil_append] at this
  simp [Trajectory.generatePoints, this]

/-- For a positive step the sampler returns as soon as the fuel covers
`⌊t_max/dt⌋ + 2` tests of the loop condition, whatever the sign of the bound. -/
theorem generatePoints_isSome [FloorRing α] (sin cos : α → α) (self : Trajectory α)
    (projectile : Projectile α) (dt t_max : α) (hdt : 0 < dt) (fuel : Nat)
    (hfuel : ⌊t_max / dt⌋₊ + 2 ≤ fuel) :
    ∃ tr : Trajectory α, self.generatePoints sin cos fuel projectile dt t_max = some tr := by
  rcases lt_or_le t_max 0 with ht | ht
  · obtain ⟨f, rfl⟩ : ∃ f, fuel = f + 1 := ⟨fuel - 1, by omega⟩
    exact ⟨⟨[]⟩, by simp [Trajectory.generatePoints, generatePointsLoop_neg _ _ _ _ _ ht]⟩
  · have hq : 0 ≤ t_max / dt := div_nonneg ht hdt.le
    exact ⟨_, generatePoints_eq sin cos self projectile dt t_max hdt ⌊t_max / dt⌋₊
      ((le_div_iff₀ hdt).mp (Nat.floor_le hq))
      ((div_lt_iff₀ hdt).mp (Nat.lt_floor_add_one _)) fuel hfuel⟩

/-- A bound that is not negative yields at least the sample at `t = 0`. -/
theorem generatePoints_ne_nil (sin cos : α → α) (self tr : Trajectory α)
    (projectile : Projectile α) (dt t_max : α) (ht : 0 ≤ t_max) (fuel : Nat)
    (h : self.generatePoints sin cos fuel projectile dt t_max = some tr) :
    tr.points ≠ [] := by
  have hmono : ∀ (f : Nat) (t : α) (acc out : List (Point α)),
      generatePointsLoop sin cos projectile dt t_max f t acc = some out →
      acc.length ≤ out.length := by
    intro f
    induction f with
    | zero => intro t acc out h; simp [generatePointsLoop] at h
    | succ f ih =>
      intro t acc out h
      unfold generatePointsLoop at h
      split at h
      · have := ih _ _ _ h
        simp at this
        omega
      · simp at h
        simp [h]
  cases fuel with
  | zero => simp [Trajectory.generatePoints, generatePointsLoop] at h
  | succ f =>
    simp only [Trajectory.generatePoints, generatePointsLoop, ht, if_true,
      Option.map_eq_some'] at h
    obtain ⟨out, hout, rfl⟩ := h
    have := hmono _ _ _ _ hout
    intro hnil
    simp only at hnil
    simp [hnil] at this

end Sampler

/-! ## The frame step -/

section Frame

variable {α : Type} [LinearOrderedField α]

theorem dt_pos : (0 : α) < dt := by
  unfold dt
  norm_num

/-- With the latch set, the update block is skipped. -/
theorem update_of_hit (sin cos : α → α) (fuel : Nat) (blockX now : α) (s : State α)
    (h : s.hit = true) : update sin cos fuel blockX now s = some s := by
  simp [update, h]

/-- What a flying frame computes, given the trajectory the sampler returned. -/
theorem update_of_flying (sin cos : α → α) (fuel : Nat) (blockX now : α) (s s1 : State α)
    (h : s.hit = false) (hs : update sin cos fuel blockX now s = some s1) :
    s1.projectile = s.projectile ∧ s1.time = nextTime s ∧
    s1.hit = checkCollision blockX
      (s.projectile.calculatePosition sin cos (nextTime s)).x
      (s.projectile.calculatePosition sin cos (nextTime s)).y ∧
    s1.t_max = (5 * s.projectile.v0 * sin (s.projectile.angle * M_PI / 180)) / g ∧
    s.trajectory.generatePoints sin cos fuel s.projectile dt s1.t_max = some s1.trajectory := by
  have hnt : (if s.time + dt > s.t_max then 0 else s.time + dt) = nextTime s := by
    unfold nextTime
    split_ifs with h1 h2 h2
    · exact absurd h2 (not_le.mpr h1)
    · rfl
    · rfl
    · exact absurd (not_le.mp h2) h1
  simp only [update, h, Bool.not_false, if_true, Option.map_eq_some', hnt] at hs
  obtain ⟨tr, htr, rfl⟩ := hs
  refine ⟨rfl, rfl, ?_, rfl, htr⟩
  simp [h]

omit [LinearOrderedField α] in
theorem showMessage_fields (s : State α) :
    (showMessage s).projectile = s.projectile ∧ (showMessage s).t_max = s.t_max ∧
    (showMessage s).trajectory = s.trajectory ∧ (showMessage s).time = s.time ∧
    (showMessage s).hit = s.hit := by
  unfold showMessage
  split <;> simp

theorem frame_of_hit (sin cos : α → α) (fuel : Nat) (blockX : α) (events : List (Int × Int))
    (now : α) (s : State α) (h : s.hit = true) :
    frame sin cos fuel blockX events now s
      = some (showMessage { s with projectile := pollEvents s.projectile events }) := by
  simp [frame, update_of_hit, h]

theorem frames_of_hit (sin cos : α → α) (blockX : α) (inputs : List (FrameInput α)) :
    ∀ s : State α, s.hit = true →
      ∃ s1, frames sin cos blockX inputs s = some s1 ∧ s1.hit = true ∧
        s1.time = s.time ∧ s1.trajectory = s.trajectory := by
  induction inputs with
  | nil => intro s h; exact ⟨s, rfl, h, rfl, rfl⟩
  | cons inp rest ih =>
    intro s h
    have hf := frame_of_hit sin cos inp.fuel blockX inp.events inp.now s h
    obtain ⟨_, _, htr, htime, hhit⟩ :=
      showMessage_fields { s with projectile := pollEvents s.projectile inp.events }
    obtain ⟨s1, hs1, hh, ht, hp⟩ := ih _ (hhit.trans h)
    refine ⟨s1, ?_, hh, ht.trans htime, hp.trans htr⟩
    simp only [frames, hf]
    exact hs1

theorem pollEvents_angle (p : Projectile α) (events : List (Int × Int))
    (h : 0 ≤ p.angle ∧ p.angle ≤ 90) :
    0 ≤ (pollEvents p events).angle ∧ (pollEvents p events).angle ≤ 90 := by
  have hstep : ∀ (p : Projectile α) (key action : Int), 0 ≤ p.angle ∧ p.angle ≤ 90 →
      0 ≤ (keyCallback p key action).angle ∧ (keyCallback p key action).angle ≤ 90 := by
    intro p key action ⟨h0, h90⟩
    simp only [keyCallback]
    split_ifs <;> constructor <;> dsimp only <;> linarith
  unfold pollEvents
  induction events generalizing p with
  | nil => exact h
  | cons e rest ih => exact ih _ (hstep p e.1 e.2 h)

/-- A property kept by every frame holds after every run of frames. -/
theorem frames_induction (sin cos : α → α) (blockX : α) (P : State α → Prop)
    (hstep : ∀ (fuel : Nat) (events : List (Int × Int)) (now : α) (s s1 : State α), P s →
      frame sin cos fuel blockX events now s = some s1 → P s1)
    (inputs : List (FrameInput α)) :
    ∀ s s1 : State α, P s → frames sin cos blockX inputs s = some s1 → P s1 := by
  induction inputs with
  | nil =>
    intro s s1 hP h
    simp only [frames, Option.some.injEq] at h
    exact h ▸ hP
  | cons inp rest ih =>
    intro s s1 hP h
    simp only [frames] at h
    split at h
    · exact absurd h (by simp)
    · next s2 hs2 => exact ih s2 s1 (hstep _ _ _ _ _ hP hs2) h

theorem setup_time (sin cos : α → α) (fuel : Nat) (s : State α)
    (h : setup sin cos fuel = some s) :
    s.time = 0 ∧ s.hit = false ∧ s.projectile = ⟨v0, angle⟩ := by
  simp only [setup, Option.map_eq_some'] at h
  obtain ⟨tr, -, rfl⟩ := h
  exact ⟨rfl, rfl, rfl⟩

theorem nextTime_nonneg (s : State α) (h : 0 ≤ s.time) : 0 ≤ nextTime s := by
  unfold nextTime
  split_ifs
  · exact add_nonneg h dt_pos.le
  · exact le_rfl

theorem frame_time_nonneg (sin cos : α → α) (fuel : Nat) (blockX : α)
    (events : List (Int × Int)) (now : α) (s s1 : State α) (h : 0 ≤ s.time)
    (hs : frame sin cos fuel blockX events now s = some s1) : 0 ≤ s1.time := by
  simp only [frame, Option.map_eq_some'] at hs
  obtain ⟨u, hu, rfl⟩ := hs
  rw [(showMessage_fields u).2.2.2.1]
  cases hh : s.hit with
  | true =>
    rw [update_of_hit sin cos fuel blockX now
      { s with projectile := pollEvents s.projectile events } hh] at hu
    simp only [Option.some.injEq] at hu
    rw [← hu]
    exact h
  | false =>
    obtain ⟨-, ht, -, -, -⟩ := update_of_flying sin cos fuel blockX now
      { s with projectile := pollEvents s.projectile events } u hh hu
    rw [ht]
    exact nextTime_nonneg _ h

/-- A flying frame returns once the fuel covers the sampler's loop for the
bound computed in that frame. -/
theorem frame_flying_isSome [FloorRing α] (sin cos : α → α) (blockX : α)
    (events : List (Int × Int)) (now : α) (s : State α) (fuel : Nat)
    (hfuel : ⌊(5 * (pollEvents s.projectile events).v0
      * sin ((pollEvents s.projectile events).angle * M_PI / 180)) / g / dt⌋₊ + 2 ≤ fuel) :
    ∃ s1, frame sin cos fuel blockX events now s = some s1 := by
  cases hh : s.hit with
  | true => exact ⟨_, frame_of_hit sin cos fuel blockX events now s hh⟩
  | false =>
    obtain ⟨tr, htr⟩ := generatePoints_isSome sin cos s.trajectory
      (pollEvents s.projectile events) dt _ dt_pos fuel hfuel
    simp [frame, update, hh, htr]

end Frame

/-! ## Facts that need the real sine and cosine -/

section RealFacts

theorem pollEvents_down {α : Type} [LinearOrderedField α] (n : Nat) :
    ∀ p : Projectile α, (n : α) ≤ p.angle →
      pollEvents p (List.replicate n (GLFW_KEY_DOWN, GLFW_PRESS)) = ⟨p.v0, p.angle - n⟩ := by
  induction n with
  | zero => intro p _; simp [pollEvents]
  | succ n ih =>
    intro p h
    push_cast at h
    have hk : keyCallback p GLFW_KEY_DOWN GLFW_PRESS = ⟨p.v0, p.angle - 1⟩ := by
      have : ¬ (p.angle - 1 < 0) := by
        have : (0 : α) ≤ n := Nat.cast_nonneg n
        linarith
      simp [keyCallback, GLFW_KEY_DOWN, GLFW_KEY_W, GLFW_KEY_S, GLFW_KEY_UP, this]
    have := ih ⟨p.v0, p.angle - 1⟩ (by simp only; linarith)
    simp only [pollEvents, List.replicate_succ, List.foldl_cons] at this ⊢
    rw [hk, this]
    push_cast
    congr 1
    ring

theorem pollEvents_w {α : Type} [LinearOrderedField α] (n : Nat) :
    ∀ p : Projectile α,
      pollEvents p (List.replicate n (GLFW_KEY_W, GLFW_PRESS)) = ⟨p.v0 + n / 10, p.angle⟩ := by
  induction n with
  | zero => intro p; simp [pollEvents]
  | succ n ih =>
    intro p
    have hk : keyCallback p GLFW_KEY_W GLFW_PRESS = ⟨p.v0 + 1 / 10, p.angle⟩ := by
      simp [keyCallback]
    have := ih ⟨p.v0 + 1 / 10, p.angle⟩
    simp only [pollEvents, List.replicate_succ, List.foldl_cons] at this ⊢
    rw [hk, this]
    push_cast
    congr 1
    ring

theorem pollEvents_hitEvents {α : Type} [LinearOrderedField α] :
    pollEvents (⟨v0, angle⟩ : Projectile α) hitEvents = ⟨5, 0⟩ := by
  have h1 := pollEvents_down 60 (⟨v0, angle⟩ : Projectile α) (by simp [angle])
  have h2 := pollEvents_w 10 (⟨v0, angle - (60 : Nat)⟩ : Projectile α)
  unfold pollEvents at h1 h2 ⊢
  rw [hitEvents, List.foldl_append, h1, h2]
  simp only [v0, angle]
  norm_num

theorem cos_window (y : ℝ) (hy0 : 52 / 100 ≤ y) (hy1 : y ≤ 53 / 100) :
    (858375 / 1000000 : ℝ) ≤ Real.cos y ∧ Real.cos y < 9196 / 10000 := by
  have hsq0 : (52 / 100 : ℝ) ^ 2 ≤ y ^ 2 := by nlinarith
  have hsq1 : y ^ 2 ≤ (53 / 100 : ℝ) ^ 2 := by nlinarith
  constructor
  · have := Real.one_sub_sq_div_two_le_cos (x := y)
    nlinarith
  · have habs : |y| ≤ 1 := by rw [abs_le]; constructor <;> linarith
    have hb := Real.cos_bound habs
    have hy4 : |y| ^ 4 ≤ (53 / 100 : ℝ) ^ 4 := by
      rw [abs_of_nonneg (by linarith)]
      have : y ^ 4 = (y ^ 2) ^ 2 := by ring
      rw [this]
      nlinarith
    have := (abs_le.mp hb).2
    nlinarith

/-- The sine the setup code evaluates, `sin (60 * 3.14 / 180)`, lies between
0.858375 and 0.9196. -/
theorem sin_default_bounds :
    (858375 / 1000000 : ℝ) ≤ Real.sin (angle * M_PI / 180) ∧
    Real.sin (angle * M_PI / 180) < 9196 / 10000 := by
  have hlo := Real.pi_gt_d2
  have hhi := Real.pi_lt_d2
  have harg : (angle * M_PI / 180 : ℝ) = 157 / 150 := by
    simp only [angle, M_PI]
    norm_num
  rw [harg, ← Real.cos_pi_div_two_sub]
  apply cos_window
  · norm_num at hlo ⊢; linarith
  · norm_num at hhi ⊢; linarith

/-- The bound computed at setup lies in `[14 * dt, 15 * dt)`. -/
theorem setup_t_max_bounds :
    ((14 : Nat) : ℝ) * dt ≤ (2 * v0 * Real.sin (angle * M_PI / 180)) / g ∧
    (2 * v0 * Real.sin (angle * M_PI / 180)) / g < (((14 : Nat) : ℝ) + 1) * dt := by
  obtain ⟨hlo, hhi⟩ := sin_default_bounds
  have hg : (0 : ℝ) < g := by unfold g; norm_num
  constructor
  · rw [le_div_iff₀ hg]
    simp only [dt, g, v0]
    push_cast
    linarith
  · rw [div_lt_iff₀ hg]
    simp only [dt, g, v0]
    push_cast
    linarith

theorem setup_real (fuel : Nat) (hfuel : 16 ≤ fuel) :
    setup Real.sin Real.cos fuel = some (setupState Real.sin Real.cos 15) := by
  have := generatePoints_eq Real.sin Real.cos ⟨[]⟩ ⟨v0, angle⟩ dt
    ((2 * v0 * Real.sin (angle * M_PI / 180)) / g) dt_pos 14
    setup_t_max_bounds.1 setup_t_max_bounds.2 fuel hfuel
  simp only [setup, Trajectory.new, this, Option.map_some', setupState]

/-- With `blockX = 1`, the frame that polls `hitEvents` in the setup state
ends in `hitState`. -/
theorem frame_hitEvents (fuel : Nat) (hfuel : 2 ≤ fuel) (now : ℝ) :
    frame Real.sin Real.cos fuel 1 hitEvents now (setupState Real.sin Real.cos 15)
      = some (hitState now) := by
  have hp : pollEvents (setupState Real.sin Real.cos 15).projectile hitEvents = ⟨5, 0⟩ :=
    pollEvents_hitEvents
  have htm : ¬ ((0 : ℝ) + dt > (setupState Real.sin Real.cos 15).t_max) := by
    have := setup_t_max_bounds.1
    simp only [setupState, not_lt, zero_add, gt_iff_lt]
    refine le_trans ?_ this
    simp only [dt]
    norm_num
  have hgen := generatePoints_eq Real.sin Real.cos
    (setupState Real.sin Real.cos 15).trajectory ⟨5, 0⟩ dt 0 dt_pos 0
    (by simp) (by simp [dt]) fuel (by omega)
  have hzero : (5 * (5 : ℝ) * Real.sin (0 * M_PI / 180)) / g = 0 := by simp
  have hpos : (⟨5, 0⟩ : Projectile ℝ).calculatePosition Real.sin Real.cos (0 + dt)
      = ⟨1, 475475 / 1000000⟩ := by
    simp only [Projectile.calculatePosition, zero_mul, zero_div, Real.sin_zero, Real.cos_zero,
      dt, scale, g]
    norm_num
  have hcol : checkCollision (1 : ℝ) 1 (475475 / 1000000) = true := by
    simp only [checkCollision, blockWidth, blockY, blockHeight]
    norm_num
  have hsamp : samples Real.sin Real.cos (⟨5, 0⟩ : Projectile ℝ) dt 0 (0 + 1)
      = [⟨1 / 2, 1 / 2⟩] := by
    simp [samples, Projectile.calculatePosition]
  rw [hsamp] at hgen
  simp only [frame, update, hp]
  simp only [setupState] at htm hgen ⊢
  simp only [Bool.not_false, if_true, htm, if_false, hzero, hgen, hpos, hcol,
    Option.map_some', showMessage, hitState]
  norm_num [dt]

theorem reachable_hitState (now : ℝ) : Reachable Real.sin Real.cos 1 (hitState now) := by
  refine ⟨16, [⟨hitEvents, now, 2⟩], setupState Real.sin Real.cos 15, setup_real 16 le_rfl, ?_⟩
  simp [frames, frame_hitEvents 2 le_rfl now]

/-- The position tested in the frame of `frame_hitEvents` lies in the block. -/
theorem hitEvents_collides (now : ℝ) :
    checkCollision (1 : ℝ)
      ((pollEvents (setupState Real.sin Real.cos 15).projectile hitEvents).calculatePosition
        Real.sin Real.cos (hitState now).time).x
      ((pollEvents (setupState Real.sin Real.cos 15).projectile hitEvents).calculatePosition
        Real.sin Real.cos (hitState now).time).y = true := by
  have hp : pollEvents (setupState Real.sin Real.cos 15).projectile hitEvents = ⟨5, 0⟩ :=
    pollEvents_hitEvents
  rw [hp]
  simp only [hitState, Projectile.calculatePosition, zero_mul, zero_div, Real.sin_zero,
    Real.cos_zero, scale, g, checkCollision, blockWidth, blockY, blockHeight]
  norm_num

/-- A collision at a time that is not negative, with an angle in `[0, 90]` and
the block at `blockX ≥ 1`, needs a positive speed, so the bound computed in
that frame is not negative. -/
theorem collision_bound_nonneg (blockX : ℝ) (hb : 1 ≤ blockX) (p : Projectile ℝ) (t : ℝ)
    (ht : 0 ≤ t) (ha : 0 ≤ p.angle ∧ p.angle ≤ 90)
    (hc : checkCollision blockX (p.calculatePosition Real.sin Real.cos t).x
      (p.calculatePosition Real.sin Real.cos t).y = true) :
    0 ≤ (5 * p.v0 * Real.sin (p.angle * M_PI / 180)) / g := by
  have hpi := Real.pi_gt_d2
  have hθ0 : 0 ≤ p.angle * M_PI / 180 := by
    have : (0 : ℝ) ≤ M_PI := by unfold M_PI; norm_num
    exact div_nonneg (mul_nonneg ha.1 this) (by norm_num)
  have hθ1 : p.angle * M_PI / 180 ≤ 157 / 100 := by
    simp only [M_PI]
    linarith [ha.2]
  have hcos : 0 < Real.cos (p.angle * M_PI / 180) := by
    apply Real.cos_pos_of_mem_Ioo
    constructor
    · norm_num at hpi; linarith
    · norm_num at hpi; linarith
  have hsin : 0 ≤ Real.sin (p.angle * M_PI / 180) := by
    apply Real.sin_nonneg_of_nonneg_of_le_pi hθ0
    norm_num at hpi
    linarith
  simp only [checkCollision, decide_eq_true_eq, Projectile.calculatePosition, scale] at hc
  have hx : 1 ≤ 1 / 2 + p.v0 * Real.cos (p.angle * M_PI / 180) * t * 2 := le_trans hb hc.1
  have hv : 0 < p.v0 := by
    by_contra hneg
    have hle : p.v0 ≤ 0 := not_lt.mp hneg
    have : p.v0 * (Real.cos (p.angle * M_PI / 180) * t) ≤ 0 :=
      mul_nonpos_of_nonpos_of_nonneg hle (mul_nonneg hcos.le ht)
    nlinarith
  have hg : (0 : ℝ) < g := by unfold g; norm_num
  exact div_nonneg (mul_nonneg (mul_nonneg (by norm_num) hv.le) hsin) hg.le

/-- The invariant behind the marker read: time not negative, angle in
`[0, 90]`, and a set latch comes with a trajectory that is not empty. -/
theorem frame_marker_invariant (fuel : Nat) (blockX : ℝ) (hb : 1 ≤ blockX)
    (events : List (Int × Int)) (now : ℝ) (s s1 : State ℝ)
    (hP : 0 ≤ s.time ∧ (0 ≤ s.projectile.angle ∧ s.projectile.angle ≤ 90) ∧
      (s.hit = true → s.trajectory.points ≠ []))
    (hf : frame Real.sin Real.cos fuel blockX events now s = some s1) :
    0 ≤ s1.time ∧ (0 ≤ s1.projectile.angle ∧ s1.projectile.angle ≤ 90) ∧
      (s1.hit = true → s1.trajectory.points ≠ []) := by
  obtain ⟨htime, hangle, hpts⟩ := hP
  have ht1 := frame_time_nonneg Real.sin Real.cos fuel blockX events now s s1 htime hf
  have ha1 := pollEvents_angle s.projectile events hangle
  cases hh : s.hit with
  | true =>
    rw [frame_of_hit Real.sin Real.cos fuel blockX events now s hh] at hf
    simp only [Option.some.injEq] at hf
    obtain ⟨hp, -, htr, -, hhit⟩ :=
      showMessage_fields { s with projectile := pollEvents s.projectile events }
    rw [← hf]
    refine ⟨by rw [← hf] at ht1; exact ht1, by rw [hp]; exact ha1, ?_⟩
    intro _
    rw [htr]
    exact hpts hh
  | false =>
    simp only [frame, Option.map_eq_some'] at hf
    obtain ⟨u, hu, rfl⟩ := hf
    obtain ⟨hp, ht, hhit, htm, hgen⟩ := update_of_flying Real.sin Real.cos fuel blockX now
      { s with projectile := pollEvents s.projectile events } u hh hu
    obtain ⟨hp1, -, htr1, -, hhit1⟩ := showMessage_fields u
    refine ⟨ht1, by rw [hp1, hp]; exact ha1, ?_⟩
    intro hset
    rw [hhit1, hhit] at hset
    have hbound := collision_bound_nonneg blockX hb (pollEvents s.projectile events) _
      (nextTime_nonneg { s with projectile := pollEvents s.projectile events } htime) ha1 hset
    rw [htr1]
    refine generatePoints_ne_nil Real.sin Real.cos _ u.trajectory _ dt u.t_max ?_ fuel hgen
    rw [htm]
    exact hbound

end RealFacts

/-! ## Claims -/

section Claims

variable {α : Type} [LinearOrderedField α]

/-- C3: the angle stays in `[0, 90]` under every finite sequence of key events
(any key, any action) handled by `keyCallback`, starting from any angle of
`[0, 90]`, in particular from the default 60; and the Up key applied to an
angle of 90, any number of times and with any action, leaves it at exactly 90. -/
theorem keyCallback_angle_clamped :
    (∀ (p : Projectile α) (events : List (Int × Int)), 0 ≤ p.angle ∧ p.angle ≤ 90 →
      0 ≤ (pollEvents p events).angle ∧ (pollEvents p events).angle ≤ 90) ∧
    ((0 : α) ≤ angle ∧ (angle : α) ≤ 90) ∧
    (∀ (p : Projectile α) (action : Int) (n : Nat), p.angle = 90 →
      ((fun q => keyCallback q GLFW_KEY_UP action)^[n] p).angle = 90) := by
  refine ⟨?_, ?_, ?_⟩
  · intro p events h
    exact pollEvents_angle p events h
  · unfold angle
    constructor <;> norm_num
  · intro p action n
    induction n generalizing p with
    | zero => intro h; exact h
    | succ n ih =>
      intro h
      rw [Function.iterate_succ_apply]
      apply ih
      simp only [keyCallback]
      split_ifs <;> first | rfl | exact h | (exfalso; omega) | (simp only; linarith)

/-- C3 at the default projectile with the events Up (press), Down (repeat),
W (release). -/
theorem keyCallback_angle_clamped_witness :
    ((0 : ℚ) ≤ (⟨4, 60⟩ : Projectile ℚ).angle ∧ (⟨4, 60⟩ : Projectile ℚ).angle ≤ 90) ∧
    0 ≤ (pollEvents (⟨4, 60⟩ : Projectile ℚ) [(265, 1), (264, 2), (87, 0)]).angle ∧
    (pollEvents (⟨4, 60⟩ : Projectile ℚ) [(265, 1), (264, 2), (87, 0)]).angle ≤ 90 :=
  ⟨⟨by norm_num, by norm_num⟩,
    keyCallback_angle_clamped.1 ⟨4, 60⟩ [(265, 1), (264, 2), (87, 0)]
      ⟨by norm_num, by norm_num⟩⟩

/-- C8: on a press or repeat, W sets the speed to `speed + 0.1` and S to
`speed - 0.1` (no lower bound: from 0.1 the result is 0, from 0 it is negative),
both keeping the angle; Up and Down keep the speed; every other key, and every
event that is neither press nor repeat, leaves speed and angle unchanged. -/
theorem keyCallback_frame (p : Projectile α) (key action : Int) :
    (action = GLFW_PRESS ∨ action = GLFW_REPEAT →
      keyCallback p GLFW_KEY_W action = ⟨p.v0 + 1 / 10, p.angle⟩ ∧
      keyCallback p GLFW_KEY_S action = ⟨p.v0 - 1 / 10, p.angle⟩ ∧
      (keyCallback p GLFW_KEY_UP action).v0 = p.v0 ∧
      (keyCallback p GLFW_KEY_DOWN action).v0 = p.v0 ∧
      (key ≠ GLFW_KEY_W → key ≠ GLFW_KEY_S → key ≠ GLFW_KEY_UP → key ≠ GLFW_KEY_DOWN →
        keyCallback p key action = p)) ∧
    (action ≠ GLFW_PRESS → action ≠ GLFW_REPEAT → keyCallback p key action = p) ∧
    (keyCallback (⟨1 / 10, p.angle⟩ : Projectile α) GLFW_KEY_S GLFW_PRESS).v0 = 0 ∧
    (keyCallback (⟨0, p.angle⟩ : Projectile α) GLFW_KEY_S GLFW_PRESS).v0 < 0 := by
  refine ⟨?_, ?_, ?_, ?_⟩
  · intro ha
    refine ⟨?_, ?_, ?_, ?_, ?_⟩
    · simp [keyCallback, ha]
    · simp [keyCallback, ha, GLFW_KEY_S, GLFW_KEY_W]
    · simp only [keyCallback, ha, if_true, GLFW_KEY_S, GLFW_KEY_W, GLFW_KEY_UP]
      split_ifs <;> first | rfl | omega
    · simp only [keyCallback, ha, if_true, GLFW_KEY_S, GLFW_KEY_W, GLFW_KEY_UP, GLFW_KEY_DOWN]
      split_ifs <;> first | rfl | omega
    · intro h1 h2 h3 h4
      simp [keyCallback, ha, h1, h2, h3, h4]
  · intro h1 h2
    simp [keyCallback, h1, h2]
  · simp [keyCallback, GLFW_PRESS, GLFW_KEY_S, GLFW_KEY_W]
  · simp [keyCallback, GLFW_PRESS, GLFW_KEY_S, GLFW_KEY_W]

/-- C8 at the default projectile: W pressed, and the key `A` (65) pressed. -/
theorem keyCallback_frame_witness :
    (GLFW_PRESS = GLFW_PRESS ∨ GLFW_PRESS = GLFW_REPEAT) ∧
    keyCallback (⟨4, 60⟩ : Projectile ℚ) GLFW_KEY_W GLFW_PRESS = ⟨4 + 1 / 10, 60⟩ ∧
    keyCallback (⟨4, 60⟩ : Projectile ℚ) 65 GLFW_PRESS = ⟨4, 60⟩ ∧
    keyCallback (⟨4, 60⟩ : Projectile ℚ) GLFW_KEY_W GLFW_RELEASE = ⟨4, 60⟩ :=
  ⟨Or.inl rfl,
    ((keyCallback_frame (⟨4, 60⟩ : Projectile ℚ) 65 GLFW_PRESS).1 (Or.inl rfl)).1,
    ((keyCallback_frame (⟨4, 60⟩ : Projectile ℚ) 65 GLFW_PRESS).1 (Or.inl rfl)).2.2.2.2
      (by decide) (by decide) (by decide) (by decide),
    (keyCallback_frame (⟨4, 60⟩ : Projectile ℚ) GLFW_KEY_W GLFW_RELEASE).2.1
      (by decide) (by decide)⟩

/-- C4: a frame entered with `hit = true` returns with `hit = true`, the same
elapsed time and the same trajectory, whatever key events it polls; so does
every run of frames; and when the collision predicate is true in a flying
frame, that frame sets the latch and every later frame keeps the latch, the
elapsed time and the trajectory that frame left. -/
theorem frame_hit_latch (sin cos : α → α) (fuel : Nat) (blockX : α) :
    (∀ (events : List (Int × Int)) (now : α) (s : State α), s.hit = true →
      ∃ s1, frame sin cos fuel blockX events now s = some s1 ∧ s1.hit = true ∧
        s1.time = s.time ∧ s1.trajectory = s.trajectory) ∧
    (∀ (inputs : List (FrameInput α)) (s : State α), s.hit = true →
      ∃ s1, frames sin cos blockX inputs s = some s1 ∧ s1.hit = true ∧
        s1.time = s.time ∧ s1.trajectory = s.trajectory) ∧
    (∀ (events : List (Int × Int)) (now : α) (s s1 : State α) (inputs : List (FrameInput α)),
      s.hit = false → frame sin cos fuel blockX events now s = some s1 →
      checkCollision blockX
        ((pollEvents s.projectile events).calculatePosition sin cos s1.time).x
        ((pollEvents s.projectile events).calculatePosition sin cos s1.time).y = true →
      s1.hit = true ∧
      ∃ s2, frames sin cos blockX inputs s1 = some s2 ∧ s2.hit = true ∧
        s2.time = s1.time ∧ s2.trajectory = s1.trajectory) := by
  refine ⟨?_, ?_, ?_⟩
  · intro events now s h
    obtain ⟨-, -, htr, htime, hhit⟩ :=
      showMessage_fields { s with projectile := pollEvents s.projectile events }
    exact ⟨_, frame_of_hit sin cos fuel blockX events now s h, hhit.trans h, htime, htr⟩
  · intro inputs s h
    exact frames_of_hit sin cos blockX inputs s h
  · intro events now s s1 inputs h hs hc
    simp only [frame, Option.map_eq_some'] at hs
    obtain ⟨u, hu, rfl⟩ := hs
    obtain ⟨-, ht, hh, -, -⟩ := update_of_flying sin cos fuel blockX now
      { s with projectile := pollEvents s.projectile events } u h hu
    obtain ⟨-, -, -, htime, hhit⟩ := showMessage_fields u
    have h1 : (showMessage u).hit = true := by
      rw [hhit, hh, ← ht, ← htime]
      exact hc
    exact ⟨h1, frames_of_hit sin cos blockX inputs _ h1⟩

/-- C4 on the run of `frame_hitEvents` (real sine and cosine, `blockX = 1`):
the frame in which the collision test succeeds sets the latch, and three more
frames with further key events leave latch, time and trajectory as they were. -/
theorem frame_hit_latch_witness :
    (setupState Real.sin Real.cos 15).hit = false ∧
    frame Real.sin Real.cos 16 1 hitEvents 3 (setupState Real.sin Real.cos 15)
      = some (hitState 3) ∧
    (hitState (3 : ℝ)).hit = true ∧
    ∃ s2, frames Real.sin Real.cos 1
        [⟨[(GLFW_KEY_W, GLFW_PRESS)], 4, 16⟩, ⟨[(GLFW_KEY_UP, GLFW_REPEAT)], 5, 16⟩, ⟨[], 6, 0⟩]
        (hitState 3) = some s2 ∧
      s2.hit = true ∧ s2.time = (hitState (3 : ℝ)).time ∧
      s2.trajectory = (hitState (3 : ℝ)).trajectory :=
  ⟨rfl, frame_hitEvents 16 (by norm_num) 3,
    ((frame_hit_latch Real.sin Real.cos 16 1).2.2 hitEvents 3
      (setupState Real.sin Real.cos 15) (hitState 3)
      [⟨[(GLFW_KEY_W, GLFW_PRESS)], 4, 16⟩, ⟨[(GLFW_KEY_UP, GLFW_REPEAT)], 5, 16⟩, ⟨[], 6, 0⟩]
      rfl (frame_hitEvents 16 (by norm_num) 3) (hitEvents_collides 3)).1,
    ((frame_hit_latch Real.sin Real.cos 16 1).2.2 hitEvents 3
      (setupState Real.sin Real.cos 15) (hitState 3)
      [⟨[(GLFW_KEY_W, GLFW_PRESS)], 4, 16⟩, ⟨[(GLFW_KEY_UP, GLFW_REPEAT)], 5, 16⟩, ⟨[], 6, 0⟩]
      rfl (frame_hitEvents 16 (by norm_num) 3) (hitEvents_collides 3)).2⟩

/-- C9: a frame entered with `hit = false` returns (once the fuel covers the
sampler's loop) with the elapsed time `time + dt` when `time + dt ≤ t_max` and
0 otherwise, `t_max` being the bound held at the start of the frame, and its
`hit` is the collision test at the position for that new time; the elapsed
time is never negative in a state reachable from `setup`. -/
theorem frame_time_wrap [FloorRing α] (sin cos : α → α) (blockX : α) :
    (∀ (events : List (Int × Int)) (now : α) (s : State α), s.hit = false →
      ∃ fuel0 : Nat, ∀ fuel : Nat, fuel0 ≤ fuel →
        ∃ s1, frame sin cos fuel blockX events now s = some s1 ∧
          s1.time = (if s.time + dt ≤ s.t_max then s.time + dt else 0) ∧
          s1.hit = checkCollision blockX
            ((pollEvents s.projectile events).calculatePosition sin cos s1.time).x
            ((pollEvents s.projectile events).calculatePosition sin cos s1.time).y) ∧
    (∀ s : State α, Reachable sin cos blockX s → 0 ≤ s.time) := by
  constructor
  · intro events now s h
    refine ⟨⌊(5 * (pollEvents s.projectile events).v0
      * sin ((pollEvents s.projectile events).angle * M_PI / 180)) / g / dt⌋₊ + 2,
      fun fuel hfuel => ?_⟩
    obtain ⟨s1, hs1⟩ := frame_flying_isSome sin cos blockX events now s fuel hfuel
    refine ⟨s1, hs1, ?_⟩
    simp only [frame, Option.map_eq_some'] at hs1
    obtain ⟨u, hu, rfl⟩ := hs1
    obtain ⟨-, ht, hh, -, -⟩ := update_of_flying sin cos fuel blockX now
      { s with projectile := pollEvents s.projectile events } u h hu
    obtain ⟨-, -, -, htime, hhit⟩ := showMessage_fields u
    refine ⟨htime.trans ht, ?_⟩
    rw [hhit, hh, htime, ht]
  · rintro s ⟨fuel, inputs, s0, h0, hs⟩
    refine frames_induction sin cos blockX (fun s => 0 ≤ s.time) ?_ inputs s0 s ?_ hs
    · intro fuel1 events now s s1 hP hf
      exact frame_time_nonneg sin cos fuel1 blockX events now s s1 hP hf
    · exact (setup_time sin cos fuel s0 h0).1.ge

/-- C9 on the setup state (flying) polling `hitEvents`, and on the reachable
state `hitState 3`, with the real sine and cosine and `blockX = 1`. -/
theorem frame_time_wrap_witness :
    (setupState Real.sin Real.cos 15).hit = false ∧
    (∃ fuel0 : Nat, ∀ fuel : Nat, fuel0 ≤ fuel →
      ∃ s1, frame Real.sin Real.cos fuel 1 hitEvents 3 (setupState Real.sin Real.cos 15)
          = some s1 ∧
        s1.time = (if (setupState Real.sin Real.cos 15).time + dt
            ≤ (setupState Real.sin Real.cos 15).t_max
          then (setupState Real.sin Real.cos 15).time + dt else 0) ∧
        s1.hit = checkCollision 1
          ((pollEvents (setupState Real.sin Real.cos 15).projectile hitEvents).calculatePosition
            Real.sin Real.cos s1.time).x
          ((pollEvents (setupState Real.sin Real.cos 15).projectile hitEvents).calculatePosition
            Real.sin Real.cos s1.time).y) ∧
    Reachable Real.sin Real.cos 1 (hitState 3) ∧ 0 ≤ (hitState (3 : ℝ)).time :=
  ⟨rfl, (frame_time_wrap Real.sin Real.cos 1).1 hitEvents 3 (setupState Real.sin Real.cos 15) rfl,
    reachable_hitState 3,
    (frame_time_wrap Real.sin Real.cos 1).2 (hitState 3) (reachable_hitState 3)⟩

/-- C7: with the default speed 4 and angle 60, the bound
`2 * v0 * sin (angle * M_PI / 180) / g` computed at setup and `dt = 0.05`, the
constructor returns (fuel 16 covers its 16 loop tests) a trajectory of exactly
15 points. -/
theorem setup_fifteen_points (fuel : Nat) (hfuel : 16 ≤ fuel) :
    ∃ s0 : State ℝ, setup Real.sin Real.cos fuel = some s0 ∧
      s0.projectile = ⟨4, 60⟩ ∧
      s0.t_max = (2 * 4 * Real.sin (60 * M_PI / 180)) / g ∧
      Trajectory.new Real.sin Real.cos fuel ⟨4, 60⟩ (5 / 100)
        ((2 * 4 * Real.sin (60 * M_PI / 180)) / g) = some s0.trajectory ∧
      s0.trajectory.points.length = 15 := by
  refine ⟨setupState Real.sin Real.cos 15, setup_real fuel hfuel, rfl, rfl, ?_, ?_⟩
  · have := generatePoints_eq Real.sin Real.cos ⟨[]⟩ ⟨v0, angle⟩ dt
      ((2 * v0 * Real.sin (angle * M_PI / 180)) / g) dt_pos 14
      setup_t_max_bounds.1 setup_t_max_bounds.2 fuel hfuel
    simpa only [Trajectory.new, setupState, v0, angle, dt] using this
  · simp [setupState, samples_length]

/-- C7 with fuel 16. -/
theorem setup_fifteen_points_witness :
    16 ≤ 16 ∧ ∃ s0 : State ℝ, setup Real.sin Real.cos 16 = some s0 ∧
      s0.projectile = ⟨4, 60⟩ ∧
      s0.t_max = (2 * 4 * Real.sin (60 * M_PI / 180)) / g ∧
      Trajectory.new Real.sin Real.cos 16 ⟨4, 60⟩ (5 / 100)
        ((2 * 4 * Real.sin (60 * M_PI / 180)) / g) = some s0.trajectory ∧
      s0.trajectory.points.length = 15 :=
  ⟨le_rfl, setup_fifteen_points 16 le_rfl⟩

/-- C10: with the real sine and cosine and `1 ≤ blockX < 5`, in every state
reachable from `setup` by frames polling any key events, `hit = true` implies
that the trajectory is not empty, and the marker read of `render`
(`points.back()` when `hit`) is defined. -/
theorem render_back_defined (blockX : ℝ) (hb : 1 ≤ blockX ∧ blockX < 5) (s : State ℝ)
    (hr : Reachable Real.sin Real.cos blockX s) :
    (s.hit = true → s.trajectory.points ≠ []) ∧
    (render Real.sin Real.cos s.trajectory s.time s.hit s.projectile).isSome = true := by
  obtain ⟨fuel, inputs, s0, h0, hs⟩ := hr
  obtain ⟨ht0, hh0, hp0⟩ := setup_time Real.sin Real.cos fuel s0 h0
  have hinv := frames_induction Real.sin Real.cos blockX
    (fun s => 0 ≤ s.time ∧ (0 ≤ s.projectile.angle ∧ s.projectile.angle ≤ 90) ∧
      (s.hit = true → s.trajectory.points ≠ []))
    (fun fuel1 events now s s1 hP hf =>
      frame_marker_invariant fuel1 blockX hb.1 events now s s1 hP hf)
    inputs s0 s
    ⟨ht0.ge, by rw [hp0]; simp only [angle]; constructor <;> norm_num,
      by intro h; rw [hh0] at h; exact absurd h (by simp)⟩ hs
  refine ⟨hinv.2.2, ?_⟩
  unfold render
  cases hh : s.hit with
  | false => simp
  | true =>
    have := hinv.2.2 hh
    simp only [Bool.not_true, Bool.false_eq_true, if_false]
    cases hpts : s.trajectory.points with
    | nil => exact absurd hpts this
    | cons a l => simp [List.getLast?_cons]

/-- C10 at `blockX = 1` on the reachable state `hitState 3`, whose latch is
set after the first frame. -/
theorem render_back_defined_witness :
    ((1 : ℝ) ≤ 1 ∧ (1 : ℝ) < 5) ∧ Reachable Real.sin Real.cos 1 (hitState 3) ∧
    (hitState (3 : ℝ)).hit = true ∧ (hitState (3 : ℝ)).trajectory.points ≠ [] ∧
    (render Real.sin Real.cos (hitState (3 : ℝ)).trajectory (hitState (3 : ℝ)).time
      (hitState (3 : ℝ)).hit (hitState (3 : ℝ)).projectile).isSome = true :=
  ⟨⟨le_rfl, by norm_num⟩, reachable_hitState 3, rfl,
    (render_back_defined 1 ⟨le_rfl, by norm_num⟩ (hitState 3) (reachable_hitState 3)).1 rfl,
    (render_back_defined 1 ⟨le_rfl, by norm_num⟩ (hitState 3) (reachable_hitState 3)).2⟩

/-- C6: at elapsed time 0 `calculatePosition` returns the launch origin
`(0.5, 0.5)`, for every speed and every angle (so also for every angle of the
valid range `[0, 90]`), whatever `sin` and `cos` compute. -/
theorem calculatePosition_zero (sin cos : α → α) (p : Projectile α) :
    p.calculatePosition sin cos 0 = ⟨1 / 2, 1 / 2⟩ := by
  simp [Projectile.calculatePosition]

end Claims

end FinalReport
